/-
Verification of the machine lifecycle monitor of the vlaunch VM supervisor
(package vm, file with pollingLoop / passiveListenerLoop / Release).

The Go code talks to the hypervisor through fallible calls; here every such
call is an oracle input (an Except value, or a script of per-iteration
inputs), and the loops become pure functions from those inputs to an
outcome plus a trace of observable actions (dispatches to observers,
event acknowledgments, teardown steps).
-/
import Mathlib

set_option maxHeartbeats 1000000

namespace Vlaunch

/-- Errors returned by hypervisor calls are opaque; we model them as strings. -/
abbrev Err := String

/-- Machine states relevant to the monitor: only equality with PoweredOff and
with the previously recorded state is ever inspected by the code. -/
inductive MachineState where
  | poweredOff
  | running
  | starting
  | other (code : Nat)
deriving DecidableEq

/-- A guest property as enumerated by EnumerateGuestProperties:
name, value, timestamp (int64), flags. -/
structure GuestProperty where
  name : String
  value : String
  timestamp : Int
  flags : String
deriving DecidableEq

/-- The payload of one OnGuestPropertyChanged call to an observer. -/
structure Notification where
  name : String
  value : String
  timestamp : Int
  flags : String
deriving DecidableEq

/-- A guest-property snapshot is a Go map keyed by property name, modelled as
a list of properties with (in the relevant theorems) no duplicate names.
Lookup m[n] is the first entry whose name is n. -/
def findProp (s : List GuestProperty) (n : String) : Option GuestProperty :=
  s.find? (fun p => p.name == n)

/-- The Go map write m[prop.Name] = prop: replace the entry with the same
name, or append. -/
def insertProp (m : List GuestProperty) (p : GuestProperty) : List GuestProperty :=
  match m with
  | [] => [p]
  | q :: rest => if q.name == p.name then p :: rest else q :: insertProp rest p

/-- getPropertyMap in pollingLoop: fold the enumerated properties into a map
keyed by name, last write wins. -/
def buildPropertyMap (l : List GuestProperty) : List GuestProperty :=
  l.foldl insertProp []

/-- The polling diff condition on a current property prop:
previousProperty, ok := previousProperties[name]; !ok or Value differs. -/
def changedOrNew (prev : List GuestProperty) (p : GuestProperty) : Bool :=
  match findProp prev p.name with
  | none => true
  | some q => q.value != p.value

/-- Notification emitted for a changed or new property: the current
snapshot's own name, value, timestamp and flags. -/
def propChangedNotification (p : GuestProperty) : Notification :=
  ⟨p.name, p.value, p.timestamp, p.flags⟩

/-- Notification emitted for a deleted property: its name with empty value,
zero timestamp and empty flags. -/
def propDeletedNotification (p : GuestProperty) : Notification :=
  ⟨p.name, "", 0, ""⟩

/-- One iteration of the pollingLoop diff (lines 156-170): first every
property of the current snapshot that is new or has a changed value, in
snapshot order, then every property of the previous snapshot that is absent
from the current one. -/
def diffNotifications (prev cur : List GuestProperty) : List Notification :=
  (cur.filter (changedOrNew prev)).map propChangedNotification
    ++ (prev.filter (fun q => (findProp cur q.name).isNone)).map propDeletedNotification

/-- The inner observer loop: one OnGuestPropertyChanged call per registered
handler, in registration order. -/
def notifyAll (handlers : List α) (n : Notification) : List (α × Notification) :=
  handlers.map (fun h => (h, n))

/-- Deliver each notification of a list to every handler: the notification
loops of pollingLoop run notifyAll once per detected change. -/
def fanOut (handlers : List α) (ns : List Notification) : List (α × Notification) :=
  ns.flatMap (notifyAll handlers)

/-- RegisterEventHandler appends the handler to the eventHandlers slice. -/
def RegisterEventHandler (handlers : List α) (h : α) : List α :=
  handlers ++ [h]

instance {ε α : Type} [DecidableEq ε] [DecidableEq α] : DecidableEq (Except ε α) := fun a b =>
  match a, b with
  | .error e, .error f =>
    if h : e = f then isTrue (by rw [h]) else isFalse (fun hc => h (by injection hc))
  | .error _, .ok _ => isFalse (fun hc => by injection hc)
  | .ok _, .error _ => isFalse (fun hc => by injection hc)
  | .ok x, .ok y =>
    if h : x = y then isTrue (by rw [h]) else isFalse (fun hc => h (by injection hc))

/-- The hypervisor responses consumed by one pollingLoop iteration:
the GetState result and the EnumerateGuestProperties result. -/
structure PollInput where
  stateQ : Except Err MachineState
  propsQ : Except Err (List GuestProperty)
deriving DecidableEq

/-- What one pollingLoop iteration decides. -/
inductive PollStepR (α : Type) where
  | exitOk : PollStepR α
  | exitErr : Err → PollStepR α
  | next : MachineState → List GuestProperty → List (α × Notification) → PollStepR α

/-- One iteration of pollingLoop (lines 144-175): query state; on a query
error, or on powered-off differing from the previous state, return nil;
then re-enumerate properties (an error is returned as the loop error),
diff against the previous snapshot and notify, and carry the new state and
snapshot into the next iteration. -/
def pollStep (handlers : List α) (prevState : MachineState)
    (prevProps : List GuestProperty) (inp : PollInput) : PollStepR α :=
  match inp.stateQ with
  | .error _ => .exitOk
  | .ok st =>
    if st = MachineState.poweredOff ∧ st ≠ prevState then .exitOk
    else
      match inp.propsQ with
      | .error e => .exitErr e
      | .ok raw =>
        let props := buildPropertyMap raw
        .next st props (fanOut handlers (diffNotifications prevProps props))

/-- Outcome of running a monitor loop against a finite script of hypervisor
responses: it returned (with the Go error value, nil being Except.ok), or it
consumed the whole script and is still looping. -/
inductive LoopOutcome where
  | finished : Except Err Unit → LoopOutcome
  | running : LoopOutcome

/-- pollingLoop body run against a script, one PollInput per iteration,
accumulating the observer deliveries. -/
def pollingRun (handlers : List α) (prevState : MachineState)
    (prevProps : List GuestProperty) :
    List PollInput → LoopOutcome × List (α × Notification)
  | [] => (.running, [])
  | inp :: rest =>
    match pollStep handlers prevState prevProps inp with
    | .exitOk => (.finished (.ok ()), [])
    | .exitErr e => (.finished (.error e), [])
    | .next st props notifs =>
      let r := pollingRun handlers st props rest
      (r.1, notifs ++ r.2)

/-- pollingLoop (lines 118-176): record the initial state and property map
(an error in either is returned), then iterate. -/
def pollingLoop (handlers : List α) (initStateQ : Except Err MachineState)
    (initPropsQ : Except Err (List GuestProperty)) (script : List PollInput) :
    LoopOutcome × List (α × Notification) :=
  match initStateQ with
  | .error e => (.finished (.error e), [])
  | .ok s0 =>
    match initPropsQ with
    | .error e => (.finished (.error e), [])
    | .ok raw0 => pollingRun handlers s0 (buildPropertyMap raw0) script

/-- Event kinds of the listener interest set; the loop branches only on
OnStateChanged and OnGuestPropertyChanged, everything else hits the default
arm. -/
inductive EventType where
  | machineStateChanged
  | stateChanged
  | machineEvent
  | sessionStateChanged
  | guestPropertyChanged
  | otherKind (code : Nat)
deriving DecidableEq

/-- Modelled from the spec: the guest-property-changed event accessors
GetName, GetValue and GetFlags live in the external vbox bindings, whose
code is not part of this repository; per the spec a failed field decode
yields the empty string, so a field is modelled as an Option that the
dispatch defaults to the empty string. The event payload carries no
timestamp; the wall clock read at dispatch is the oracle field now. -/
structure GuestPropPayload where
  name : Option String
  value : Option String
  flags : Option String
  now : Int
deriving DecidableEq

/-- The per-event hypervisor responses of one passiveListenerLoop iteration:
GetType, GetState, NewGuestPropertyChangedEvent (with field decodes), and
EventProcessed. -/
structure PassiveEvent where
  typeQ : Except Err EventType
  stateQ : Except Err MachineState
  propDecode : Except Err GuestPropPayload
  processedQ : Except Err Unit
deriving DecidableEq

/-- Result of GetEvent(listener, 250): an error, a nil event (timeout), or
an event. -/
inductive GetEventResult where
  | errored (e : Err)
  | timeout
  | event (ev : PassiveEvent)
deriving DecidableEq

/-- Observable actions of one passiveListenerLoop iteration. -/
inductive PAction (α : Type) where
  | stateHook
  | dispatch (h : α) (n : Notification)
  | eventProcessed
  | eventRelease
deriving DecidableEq

/-- Control decision of one passiveListenerLoop iteration. -/
inductive PControl where
  | next
  | exitOk
  | exitErr (e : Err)
deriving DecidableEq

/-- The switch on the event type (lines 87-103): the OnStateChanged hook, the
guest-property fan-out with empty-string fallback for failed field decodes
and the dispatch-time clock as timestamp, or nothing; a failed
NewGuestPropertyChangedEvent is an error. -/
def dispatchActions (handlers : List α) (ty : EventType)
    (pd : Except Err GuestPropPayload) : Except Err (List (PAction α)) :=
  match ty with
  | .stateChanged => .ok [.stateHook]
  | .guestPropertyChanged =>
    match pd with
    | .error e => .error e
    | .ok payload =>
      .ok ((notifyAll handlers
        ⟨payload.name.getD "", payload.value.getD "", payload.now,
          payload.flags.getD ""⟩).map (fun d => .dispatch d.1 d.2))
  | _ => .ok []

/-- One passiveListenerLoop iteration (lines 67-115): GetEvent error aborts;
nil event continues; then GetType, GetState (errors abort), the dispatch
switch, the powered-off exit check (which skips EventProcessed), and
otherwise EventProcessed (an error aborts) followed by the event release. -/
def passiveStep (handlers : List α) (inp : GetEventResult) :
    List (PAction α) × PControl :=
  match inp with
  | .errored e => ([], .exitErr e)
  | .timeout => ([], .next)
  | .event ev =>
    match ev.typeQ with
    | .error e => ([], .exitErr e)
    | .ok ty =>
      match ev.stateQ with
      | .error e => ([], .exitErr e)
      | .ok st =>
        match dispatchActions handlers ty ev.propDecode with
        | .error e => ([], .exitErr e)
        | .ok acts =>
          if ty = EventType.stateChanged ∧ st = MachineState.poweredOff then
            (acts, .exitOk)
          else
            match ev.processedQ with
            | .error e => (acts ++ [.eventProcessed], .exitErr e)
            | .ok _ => (acts ++ [.eventProcessed, .eventRelease], .next)

/-- The passiveListenerLoop event loop run against a finite script of GetEvent
results, accumulating the action trace. -/
def passiveRun (handlers : List α) :
    List GetEventResult → LoopOutcome × List (PAction α)
  | [] => (.running, [])
  | inp :: rest =>
    match passiveStep handlers inp with
    | (tr, .exitOk) => (.finished (.ok ()), tr)
    | (tr, .exitErr e) => (.finished (.error e), tr)
    | (tr, .next) =>
      let r := passiveRun handlers rest
      (r.1, tr ++ r.2)

/-- Results of the setup calls of passiveListenerLoop: GetEventSource,
CreateListener, RegisterListener. -/
structure SetupInputs where
  eventSourceQ : Except Err Unit
  listenerQ : Except Err Unit
  registerQ : Except Err Unit

/-- passiveListenerLoop (lines 40-116): any setup error is returned before
the loop starts; otherwise run the event loop. -/
def passiveListenerLoop (handlers : List α) (setup : SetupInputs)
    (script : List GetEventResult) : LoopOutcome × List (PAction α) :=
  match setup.eventSourceQ with
  | .error e => (.finished (.error e), [])
  | .ok _ =>
    match setup.listenerQ with
    | .error e => (.finished (.error e), [])
    | .ok _ =>
      match setup.registerQ with
      | .error e => (.finished (.error e), [])
      | .ok _ => passiveRun handlers script

/-- Claim C4: an iteration of the polling loop terminates the loop with a nil
result exactly when the state query errors, or the queried state is
powered-off and differs from the previously recorded state. -/
theorem C4_poll_exit_condition (handlers : List α) (prevState : MachineState)
    (prevProps : List GuestProperty) (inp : PollInput) :
    pollStep handlers prevState prevProps inp = PollStepR.exitOk ↔
      ((∃ e, inp.stateQ = Except.error e) ∨
        (inp.stateQ = Except.ok MachineState.poweredOff ∧
          MachineState.poweredOff ≠ prevState)) := by
  cases hs : inp.stateQ with
  | error e =>
    simp only [pollStep, hs]
    exact ⟨fun _ => Or.inl ⟨e, rfl⟩, fun _ => trivial⟩
  | ok st =>
    simp only [pollStep, hs]
    by_cases hc : st = MachineState.poweredOff ∧ st ≠ prevState
    · rw [if_pos hc]
      constructor
      · intro _
        exact Or.inr ⟨by rw [hc.1], by rw [← hc.1]; exact hc.2⟩
      · intro _; rfl
    · rw [if_neg hc]
      constructor
      · intro h
        cases hp : inp.propsQ with
        | error e => simp [hp] at h
        | ok raw => simp [hp] at h
      · rintro (⟨e, he⟩ | ⟨hok, hne⟩)
        · cases he
        · have hst : st = MachineState.poweredOff := by injection hok
          exact absurd ⟨hst, by rw [hst]; exact hne⟩ hc

/-- A polling iteration input on which the loop keeps going: the state query
succeeds with a state other than powered-off and the property enumeration
succeeds. -/
def goodPollInput (inp : PollInput) : Bool :=
  (match inp.stateQ with
   | .ok s => s != MachineState.poweredOff
   | .error _ => false)
  && (match inp.propsQ with
      | .ok _ => true
      | .error _ => false)

lemma pollingRun_running_of_good (handlers : List α) (script : List PollInput) :
    ∀ (prevState : MachineState) (prevProps : List GuestProperty),
      (∀ inp ∈ script, goodPollInput inp = true) →
      (pollingRun handlers prevState prevProps script).1 = LoopOutcome.running := by
  induction script with
  | nil => intro _ _ _; rfl
  | cons inp rest ih =>
    intro prevState prevProps hgood
    have h1 := hgood inp (List.mem_cons_self _ _)
    cases hs : inp.stateQ with
    | error e => simp [goodPollInput, hs] at h1
    | ok st =>
      cases hp : inp.propsQ with
      | error e => simp [goodPollInput, hs, hp] at h1
      | ok raw =>
        have hst : st ≠ MachineState.poweredOff := by
          simp [goodPollInput, hs, hp] at h1
          exact h1
        have hcond : ¬(st = MachineState.poweredOff ∧ st ≠ prevState) :=
          fun hc => hst hc.1
        simp only [pollingRun, pollStep, hs, hp, if_neg hcond]
        exact ih st _ (fun x hx => hgood x (List.mem_cons_of_mem _ hx))

lemma pollingRun_exit_at_final (handlers : List α) (script : List PollInput)
    (final : PollInput)
    (hfin : final.stateQ = Except.ok MachineState.poweredOff) :
    ∀ (prevState : MachineState) (prevProps : List GuestProperty),
      prevState ≠ MachineState.poweredOff →
      (∀ inp ∈ script, goodPollInput inp = true) →
      (pollingRun handlers prevState prevProps (script ++ [final])).1
        = LoopOutcome.finished (Except.ok ()) := by
  induction script with
  | nil =>
    intro prevState prevProps hprev _
    have hne : MachineState.poweredOff ≠ prevState := fun h => hprev h.symm
    simp [pollingRun, pollStep, hfin, hne]
  | cons inp rest ih =>
    intro prevState prevProps hprev hgood
    have h1 := hgood inp (List.mem_cons_self _ _)
    cases hs : inp.stateQ with
    | error e => simp [goodPollInput, hs] at h1
    | ok st =>
      cases hp : inp.propsQ with
      | error e => simp [goodPollInput, hs, hp] at h1
      | ok raw =>
        have hst : st ≠ MachineState.poweredOff := by
          simp [goodPollInput, hs, hp] at h1
          exact h1
        have hcond : ¬(st = MachineState.poweredOff ∧ st ≠ prevState) :=
          fun hc => hst hc.1
        simp only [List.cons_append, pollingRun, pollStep, hs, hp, if_neg hcond]
        exact ih st _ hst (fun x hx => hgood x (List.mem_cons_of_mem _ hx))

lemma passiveRun_running_of_next (handlers : List α)
    (script : List GetEventResult)
    (h : ∀ x ∈ script, (passiveStep handlers x).2 = PControl.next) :
    (passiveRun handlers script).1 = LoopOutcome.running := by
  induction script with
  | nil => rfl
  | cons x rest ih =>
    have hx := h x (List.mem_cons_self _ _)
    rcases hps : passiveStep handlers x with ⟨tr, ctl⟩
    rw [hps] at hx
    simp only at hx
    subst hx
    simp only [passiveRun, hps]
    exact ih (fun y hy => h y (List.mem_cons_of_mem _ hy))

lemma passiveStep_final_poweroff (handlers : List α) (ev : PassiveEvent)
    (hty : ev.typeQ = Except.ok EventType.stateChanged)
    (hst : ev.stateQ = Except.ok MachineState.poweredOff) :
    passiveStep handlers (GetEventResult.event ev)
      = ([PAction.stateHook], PControl.exitOk) := by
  simp [passiveStep, hty, hst, dispatchActions]

lemma passiveRun_exit_at_final (handlers : List α)
    (script : List GetEventResult)
    (h : ∀ x ∈ script, (passiveStep handlers x).2 = PControl.next)
    (ev : PassiveEvent)
    (hty : ev.typeQ = Except.ok EventType.stateChanged)
    (hst : ev.stateQ = Except.ok MachineState.poweredOff) :
    (passiveRun handlers (script ++ [GetEventResult.event ev])).1
      = LoopOutcome.finished (Except.ok ()) := by
  induction script with
  | nil =>
    simp only [List.nil_append, passiveRun,
      passiveStep_final_poweroff handlers ev hty hst]
  | cons x rest ih =>
    have hx := h x (List.mem_cons_self _ _)
    rcases hps : passiveStep handlers x with ⟨tr, ctl⟩
    rw [hps] at hx
    simp only at hx
    subst hx
    simp only [List.cons_append, passiveRun, hps]
    exact ih (fun y hy => h y (List.mem_cons_of_mem _ hy))

/-- Claim C2: with a scripted source whose reported machine state first
becomes powered-off at iteration N (the script is N benign iterations
followed by the powered-off report), each monitor mode returns a nil error
upon processing that report, and running only the N earlier iterations
leaves the loop still running, so it does not return successfully earlier.
For the polling mode the report is a state query answering powered-off;
for the event mode it is a state-changed event delivered while the state
query answers powered-off. -/
theorem C2_termination_at_poweroff (handlersP handlersE : List α)
    (s0 : MachineState) (raw0 : List GuestProperty)
    (scriptP : List PollInput) (finalP : PollInput)
    (scriptE : List GetEventResult) (ev : PassiveEvent)
    (hs0 : s0 ≠ MachineState.poweredOff)
    (hgoodP : ∀ inp ∈ scriptP, goodPollInput inp = true)
    (hfinP : finalP.stateQ = Except.ok MachineState.poweredOff)
    (hgoodE : ∀ x ∈ scriptE, (passiveStep handlersE x).2 = PControl.next)
    (hty : ev.typeQ = Except.ok EventType.stateChanged)
    (hst : ev.stateQ = Except.ok MachineState.poweredOff) :
    (pollingLoop handlersP (Except.ok s0) (Except.ok raw0)
        (scriptP ++ [finalP])).1 = LoopOutcome.finished (Except.ok ()) ∧
    (pollingLoop handlersP (Except.ok s0) (Except.ok raw0) scriptP).1
        = LoopOutcome.running ∧
    (passiveRun handlersE (scriptE ++ [GetEventResult.event ev])).1
        = LoopOutcome.finished (Except.ok ()) ∧
    (passiveRun handlersE scriptE).1 = LoopOutcome.running := by
  refine ⟨?_, ?_, ?_, ?_⟩
  · exact pollingRun_exit_at_final handlersP scriptP finalP hfinP s0 _ hs0 hgoodP
  · exact pollingRun_running_of_good handlersP scriptP s0 _ hgoodP
  · exact passiveRun_exit_at_final handlersE scriptE hgoodE ev hty hst
  · exact passiveRun_running_of_next handlersE scriptE hgoodE

/-- Witness for C2: one benign iteration then the powered-off report, in each
mode, with one registered observer. -/
theorem C2_termination_at_poweroff_witness :
    (pollingLoop [0] (Except.ok MachineState.running) (Except.ok [])
        ([PollInput.mk (Except.ok MachineState.running) (Except.ok [])] ++
          [PollInput.mk (Except.ok MachineState.poweredOff)
            (Except.ok [])])).1 = LoopOutcome.finished (Except.ok ()) ∧
    (pollingLoop [0] (Except.ok MachineState.running) (Except.ok [])
        [PollInput.mk (Except.ok MachineState.running) (Except.ok [])]).1
      = LoopOutcome.running ∧
    (passiveRun [0] ([GetEventResult.timeout] ++
        [GetEventResult.event (PassiveEvent.mk
          (Except.ok EventType.stateChanged)
          (Except.ok MachineState.poweredOff)
          (Except.ok (GuestPropPayload.mk none none none 0))
          (Except.ok ()))])).1 = LoopOutcome.finished (Except.ok ()) ∧
    (passiveRun [0] [GetEventResult.timeout]).1 = LoopOutcome.running :=
  C2_termination_at_poweroff [0] [0] MachineState.running []
    [PollInput.mk (Except.ok MachineState.running) (Except.ok [])]
    (PollInput.mk (Except.ok MachineState.poweredOff) (Except.ok []))
    [GetEventResult.timeout]
    (PassiveEvent.mk (Except.ok EventType.stateChanged)
      (Except.ok MachineState.poweredOff)
      (Except.ok (GuestPropPayload.mk none none none 0)) (Except.ok ()))
    (by decide) (by decide) rfl (by decide) rfl rfl

lemma pollingRun_stuck_poweredOff (handlers : List α)
    (script : List PollInput) :
    ∀ (prevProps : List GuestProperty),
      (∀ inp ∈ script, inp.stateQ = Except.ok MachineState.poweredOff ∧
        (∃ raw, inp.propsQ = Except.ok raw)) →
      (pollingRun handlers MachineState.poweredOff prevProps script).1
        = LoopOutcome.running := by
  induction script with
  | nil => intro _ _; rfl
  | cons inp rest ih =>
    intro prevProps h
    obtain ⟨hs, raw, hp⟩ := h inp (List.mem_cons_self _ _)
    have hcond : ¬(MachineState.poweredOff = MachineState.poweredOff ∧
        MachineState.poweredOff ≠ MachineState.poweredOff) := fun hc => hc.2 rfl
    simp only [pollingRun, pollStep, hs, hp, if_neg hcond]
    exact ih _ (fun x hx => h x (List.mem_cons_of_mem _ hx))

/-- Claim C10 (amended): if the machine is already powered-off when the
polling loop starts, every in-loop state query succeeds and keeps returning
powered-off, and every property enumeration succeeds, the loop never
terminates: its success condition also requires the queried state to differ
from the previously recorded one, which never holds. -/
theorem C10_poweredOff_never_terminates (handlers : List α)
    (raw0 : List GuestProperty) (script : List PollInput)
    (h : ∀ inp ∈ script, inp.stateQ = Except.ok MachineState.poweredOff ∧
      (∃ raw, inp.propsQ = Except.ok raw)) :
    (pollingLoop handlers (Except.ok MachineState.poweredOff)
        (Except.ok raw0) script).1 = LoopOutcome.running := by
  simp only [pollingLoop]
  exact pollingRun_stuck_poweredOff handlers script _ h

/-- Witness for C10 (amended): two all-powered-off iterations leave the loop
running. -/
theorem C10_poweredOff_never_terminates_witness :
    (pollingLoop ([] : List Nat) (Except.ok MachineState.poweredOff)
        (Except.ok [])
        [PollInput.mk (Except.ok MachineState.poweredOff) (Except.ok []),
         PollInput.mk (Except.ok MachineState.poweredOff) (Except.ok [])]).1
      = LoopOutcome.running :=
  C10_poweredOff_never_terminates [] [] _ (by
    intro inp hm
    simp only [List.mem_cons, List.not_mem_nil, or_false] at hm
    rcases hm with rfl | rfl
    · exact ⟨rfl, ⟨[], rfl⟩⟩
    · exact ⟨rfl, ⟨[], rfl⟩⟩)

/-- Claim C10 as stated is refuted at this input: the machine is powered-off
from the start and every state query succeeds returning powered-off, yet the
loop terminates, because the iteration's property enumeration fails and that
error is returned. -/
theorem C10_counterexample :
    (pollingLoop ([] : List Nat) (Except.ok MachineState.poweredOff)
        (Except.ok [])
        [PollInput.mk (Except.ok MachineState.poweredOff)
          (Except.error "enumerate failed")]).1
      = LoopOutcome.finished (Except.error "enumerate failed") := rfl

lemma dispatchActions_ok (handlers : List α) (ty : EventType)
    (pd : Except Err GuestPropPayload)
    (hd : ty = EventType.guestPropertyChanged →
      ∃ p, pd = Except.ok p) :
    ∃ acts, dispatchActions handlers ty pd = Except.ok acts ∧
      PAction.eventProcessed ∉ acts := by
  cases ty with
  | stateChanged => exact ⟨[PAction.stateHook], rfl, by simp⟩
  | guestPropertyChanged =>
    obtain ⟨payload, hp⟩ := hd rfl
    refine ⟨(notifyAll handlers
        ⟨payload.name.getD "", payload.value.getD "", payload.now,
          payload.flags.getD ""⟩).map (fun d => PAction.dispatch d.1 d.2),
      ?_, ?_⟩
    · simp [dispatchActions, hp]
    · simp [notifyAll]
  | machineStateChanged => exact ⟨[], rfl, by simp⟩
  | machineEvent => exact ⟨[], rfl, by simp⟩
  | sessionStateChanged => exact ⟨[], rfl, by simp⟩
  | otherKind c => exact ⟨[], rfl, by simp⟩

/-- Claim C3: in an event-loop iteration that dispatches an event (its type
and the machine state were obtained, and the dispatch itself did not fail),
the loop terminates with a nil error exactly when the event kind is
state-changed and the freshly queried state is powered-off; on that exit
path EventProcessed is never called, while on any other such iteration the
event is acknowledged, and when the iteration loops the acknowledgment and
the release come after dispatch, in that order. -/
theorem C3_passive_exit_and_ack (handlers : List α) (ev : PassiveEvent)
    (ty : EventType) (st : MachineState)
    (hty : ev.typeQ = Except.ok ty) (hst : ev.stateQ = Except.ok st)
    (hdisp : ty = EventType.guestPropertyChanged →
      ∃ payload, ev.propDecode = Except.ok payload) :
    ((passiveStep handlers (GetEventResult.event ev)).2 = PControl.exitOk ↔
      (ty = EventType.stateChanged ∧ st = MachineState.poweredOff)) ∧
    (ty = EventType.stateChanged ∧ st = MachineState.poweredOff →
      PAction.eventProcessed ∉
        (passiveStep handlers (GetEventResult.event ev)).1) ∧
    (¬(ty = EventType.stateChanged ∧ st = MachineState.poweredOff) →
      PAction.eventProcessed ∈
        (passiveStep handlers (GetEventResult.event ev)).1 ∧
      ((passiveStep handlers (GetEventResult.event ev)).2 = PControl.next →
        ∃ tr, (passiveStep handlers (GetEventResult.event ev)).1
          = tr ++ [PAction.eventProcessed, PAction.eventRelease])) := by
  obtain ⟨acts, hacts, hnp⟩ :=
    dispatchActions_ok handlers ty ev.propDecode hdisp
  by_cases hcond : ty = EventType.stateChanged ∧ st = MachineState.poweredOff
  · obtain ⟨h1, h2⟩ := hcond
    subst h1; subst h2
    refine ⟨?_, ?_, ?_⟩
    · simp [passiveStep, hty, hst, hacts]
    · intro _
      have hred : (passiveStep handlers (GetEventResult.event ev)).1 = acts := by
        simp [passiveStep, hty, hst, hacts]
      rw [hred]
      exact hnp
    · intro hc
      exact absurd ⟨rfl, rfl⟩ hc
  · refine ⟨?_, fun h => absurd h hcond, ?_⟩
    · constructor
      · intro h
        exfalso
        cases hq : ev.processedQ with
        | error e =>
          simp [passiveStep, hty, hst, hacts, if_neg hcond, hq] at h
        | ok u =>
          simp [passiveStep, hty, hst, hacts, if_neg hcond, hq] at h
      · intro h
        exact absurd h hcond
    · intro _
      cases hq : ev.processedQ with
      | error e =>
        constructor
        · simp [passiveStep, hty, hst, hacts, if_neg hcond, hq]
        · intro hn
          exfalso
          simp [passiveStep, hty, hst, hacts, if_neg hcond, hq] at hn
      | ok u =>
        constructor
        · simp [passiveStep, hty, hst, hacts, if_neg hcond, hq]
        · intro _
          exact ⟨acts, by simp [passiveStep, hty, hst, hacts, if_neg hcond, hq]⟩

/-- Witness for C3: a state-changed event with the machine powered off exits
with nil, and its trace holds no acknowledgment. -/
theorem C3_passive_exit_and_ack_witness :
    (passiveStep [0] (GetEventResult.event (PassiveEvent.mk
        (Except.ok EventType.stateChanged)
        (Except.ok MachineState.poweredOff)
        (Except.ok (GuestPropPayload.mk none none none 0))
        (Except.ok ())))).2 = PControl.exitOk :=
  (C3_passive_exit_and_ack [0] _ EventType.stateChanged
    MachineState.poweredOff rfl rfl (fun h => nomatch h)).1.mpr ⟨rfl, rfl⟩

/-- Claim C7: dispatching a guest-property-changed event substitutes the
empty string for every field whose decode failed instead of aborting the
loop, and stamps each delivered notification with the wall clock read at
dispatch (the payload itself carries no timestamp); the iteration then
proceeds to acknowledgment exactly as for a successful decode. -/
theorem C7_guestprop_decode_tolerance (handlers : List α) (ev : PassiveEvent)
    (st : MachineState) (payload : GuestPropPayload)
    (hty : ev.typeQ = Except.ok EventType.guestPropertyChanged)
    (hst : ev.stateQ = Except.ok st)
    (hpd : ev.propDecode = Except.ok payload) :
    (∀ u, ev.processedQ = Except.ok u →
      passiveStep handlers (GetEventResult.event ev)
        = ((notifyAll handlers ⟨payload.name.getD "", payload.value.getD "",
              payload.now, payload.flags.getD ""⟩).map
                (fun d => PAction.dispatch d.1 d.2)
            ++ [PAction.eventProcessed, PAction.eventRelease],
           PControl.next)) ∧
    (∀ e, ev.processedQ = Except.error e →
      passiveStep handlers (GetEventResult.event ev)
        = ((notifyAll handlers ⟨payload.name.getD "", payload.value.getD "",
              payload.now, payload.flags.getD ""⟩).map
                (fun d => PAction.dispatch d.1 d.2)
            ++ [PAction.eventProcessed],
           PControl.exitErr e)) := by
  constructor
  · intro u hq
    simp [passiveStep, dispatchActions, hty, hst, hpd, hq]
  · intro e hq
    simp [passiveStep, dispatchActions, hty, hst, hpd, hq]

/-- Witness for C7: name and flags fail to decode and are replaced by the
empty string; the timestamp is the dispatch-time clock value 42. -/
theorem C7_guestprop_decode_tolerance_witness :
    passiveStep [7] (GetEventResult.event (PassiveEvent.mk
        (Except.ok EventType.guestPropertyChanged)
        (Except.ok MachineState.running)
        (Except.ok (GuestPropPayload.mk none (some "v") none 42))
        (Except.ok ())))
      = ([PAction.dispatch 7 (Notification.mk "" "v" 42 ""),
          PAction.eventProcessed, PAction.eventRelease], PControl.next) := by
  have h := (C7_guestprop_decode_tolerance [7]
    (PassiveEvent.mk (Except.ok EventType.guestPropertyChanged)
      (Except.ok MachineState.running)
      (Except.ok (GuestPropPayload.mk none (some "v") none 42))
      (Except.ok ()))
    MachineState.running
    (GuestPropPayload.mk none (some "v") none 42) rfl rfl rfl).1 () rfl
  simpa [notifyAll] using h

/-- Claim C5: a nil (timed-out) GetEvent result is not an error and the loop
keeps waiting, while an error from event-source acquisition, listener
creation, listener registration, GetEvent, GetType, the machine-state query
or EventProcessed terminates the loop and is returned as the monitor's
terminal error. -/
theorem C5_passive_error_handling (handlers : List α) :
    (∀ rest : List GetEventResult,
      passiveRun handlers (GetEventResult.timeout :: rest)
        = passiveRun handlers rest) ∧
    (∀ e lq rq script,
      passiveListenerLoop handlers (SetupInputs.mk (Except.error e) lq rq)
          script
        = (LoopOutcome.finished (Except.error e), [])) ∧
    (∀ e rq script,
      passiveListenerLoop handlers
          (SetupInputs.mk (Except.ok ()) (Except.error e) rq) script
        = (LoopOutcome.finished (Except.error e), [])) ∧
    (∀ e script,
      passiveListenerLoop handlers
          (SetupInputs.mk (Except.ok ()) (Except.ok ()) (Except.error e))
          script
        = (LoopOutcome.finished (Except.error e), [])) ∧
    (∀ e rest, passiveRun handlers (GetEventResult.errored e :: rest)
        = (LoopOutcome.finished (Except.error e), [])) ∧
    (∀ e ev rest, ev.typeQ = Except.error e →
      passiveRun handlers (GetEventResult.event ev :: rest)
        = (LoopOutcome.finished (Except.error e), [])) ∧
    (∀ e ev ty rest, ev.typeQ = Except.ok ty →
      ev.stateQ = Except.error e →
      passiveRun handlers (GetEventResult.event ev :: rest)
        = (LoopOutcome.finished (Except.error e), [])) ∧
    (∀ e ev ty st rest, ev.typeQ = Except.ok ty →
      ev.stateQ = Except.ok st →
      ¬(ty = EventType.stateChanged ∧ st = MachineState.poweredOff) →
      (ty = EventType.guestPropertyChanged →
        ∃ p, ev.propDecode = Except.ok p) →
      ev.processedQ = Except.error e →
      (passiveRun handlers (GetEventResult.event ev :: rest)).1
        = LoopOutcome.finished (Except.error e)) := by
  refine ⟨?_, ?_, ?_, ?_, ?_, ?_, ?_, ?_⟩
  · intro rest
    simp [passiveRun, passiveStep]
  · intro e lq rq script
    simp [passiveListenerLoop]
  · intro e rq script
    simp [passiveListenerLoop]
  · intro e script
    simp [passiveListenerLoop]
  · intro e rest
    simp [passiveRun, passiveStep]
  · intro e ev rest hq
    simp [passiveRun, passiveStep, hq]
  · intro e ev ty rest hty hst
    simp [passiveRun, passiveStep, hty, hst]
  · intro e ev ty st rest hty hst hcond hdisp hq
    obtain ⟨acts, hacts, _⟩ := dispatchActions_ok handlers ty ev.propDecode hdisp
    simp [passiveRun, passiveStep, hty, hst, hacts, if_neg hcond, hq]

/-- Witness for C5: a failed listener registration is returned as the
monitor's error. -/
theorem C5_passive_error_handling_witness :
    passiveListenerLoop [0]
        (SetupInputs.mk (Except.ok ()) (Except.ok ())
          (Except.error "register failed")) []
      = (LoopOutcome.finished (Except.error "register failed"), []) :=
  (C5_passive_error_handling [0]).2.2.2.1 "register failed" []

/-- Claim C6: RegisterEventHandler appends to an ordered sequence with no
bound and no uniqueness check (the length always grows by one, even when
re-registering), successive registrations of A, B, C yield the sequence
[A, B, C], and each detected change is delivered to the registered
observers in exactly that order, since both loops dispatch through
notifyAll, whose delivery order is the registration order. -/
theorem C6_register_and_fanout_order (hs : List α) (h a b c : α)
    (n : Notification) :
    RegisterEventHandler hs h = hs ++ [h] ∧
    (RegisterEventHandler hs h).length = hs.length + 1 ∧
    RegisterEventHandler (RegisterEventHandler
      (RegisterEventHandler [] a) b) c = [a, b, c] ∧
    (notifyAll hs n).map Prod.fst = hs ∧
    notifyAll [a, b, c] n = [(a, n), (b, n), (c, n)] ∧
    fanOut hs [n] = notifyAll hs n := by
  refine ⟨rfl, by simp [RegisterEventHandler], rfl, ?_, rfl, ?_⟩
  · induction hs with
    | nil => rfl
    | cons x t ih => simpa [notifyAll] using ih
  · simp [fanOut]

/-- An opaque backing medium handle returned by Unregister and consumed by
DeleteConfig. -/
abbrev Medium := Nat

/-- Cleanup modes of Machine.Unregister; Release uses CleanupMode_Full. -/
inductive CleanupMode where
  | full
  | detachAllReturnNone
deriving DecidableEq

/-- The teardown steps of Release, in the order the calls are made. -/
inductive RAction where
  | unlockSession
  | waitOneSecond
  | releaseController
  | unregisterMachine (mode : CleanupMode)
  | deleteConfig (media : List Medium)
  | waitForCompletion
  | progressRelease
  | releaseMachine
deriving DecidableEq

/-- Results of the hypervisor calls made by Release. -/
structure ReleaseInputs where
  unlockQ : Except Err Unit
  controllerReleaseQ : Except Err Unit
  unregisterQ : Except Err (List Medium)
  deleteConfigQ : Except Err Unit
  waitQ : Except Err Unit
  machineReleaseQ : Except Err Unit

/-- Release (lines 222-258): unlock the session, sleep one second, release
the storage controller, unregister the machine with full cleanup, delete the
machine config together with the returned media, wait for that deletion to
complete, release the machine handle; each error stops the sequence and is
returned, and the deferred progress release runs when the function returns
once DeleteConfig has succeeded. -/
def Release (inp : ReleaseInputs) : List RAction × Except Err Unit :=
  match inp.unlockQ with
  | .error e => ([.unlockSession], .error e)
  | .ok _ =>
    match inp.controllerReleaseQ with
    | .error e =>
      ([.unlockSession, .waitOneSecond, .releaseController], .error e)
    | .ok _ =>
      match inp.unregisterQ with
      | .error e =>
        ([.unlockSession, .waitOneSecond, .releaseController,
          .unregisterMachine .full], .error e)
      | .ok media =>
        match inp.deleteConfigQ with
        | .error e =>
          ([.unlockSession, .waitOneSecond, .releaseController,
            .unregisterMachine .full, .deleteConfig media], .error e)
        | .ok _ =>
          match inp.waitQ with
          | .error e =>
            ([.unlockSession, .waitOneSecond, .releaseController,
              .unregisterMachine .full, .deleteConfig media,
              .waitForCompletion, .progressRelease], .error e)
          | .ok _ =>
            match inp.machineReleaseQ with
            | .error e =>
              ([.unlockSession, .waitOneSecond, .releaseController,
                .unregisterMachine .full, .deleteConfig media,
                .waitForCompletion, .releaseMachine, .progressRelease],
               .error e)
            | .ok _ =>
              ([.unlockSession, .waitOneSecond, .releaseController,
                .unregisterMachine .full, .deleteConfig media,
                .waitForCompletion, .releaseMachine, .progressRelease],
               .ok ())

/-- Claim C8: Release performs unlock, the one-second wait, controller
release, full-cleanup unregistration, deletion of the backing media returned
by the unregistration, and machine-handle release, in that fixed order, and
any step's error stops the sequence right there and is returned. -/
theorem C8_release_order (inp : ReleaseInputs) :
    (∀ e, inp.unlockQ = Except.error e →
      Release inp = ([RAction.unlockSession], Except.error e)) ∧
    (∀ e, inp.unlockQ = Except.ok () →
      inp.controllerReleaseQ = Except.error e →
      Release inp = ([RAction.unlockSession, RAction.waitOneSecond,
        RAction.releaseController], Except.error e)) ∧
    (∀ e, inp.unlockQ = Except.ok () →
      inp.controllerReleaseQ = Except.ok () →
      inp.unregisterQ = Except.error e →
      Release inp = ([RAction.unlockSession, RAction.waitOneSecond,
        RAction.releaseController, RAction.unregisterMachine CleanupMode.full],
        Except.error e)) ∧
    (∀ e media, inp.unlockQ = Except.ok () →
      inp.controllerReleaseQ = Except.ok () →
      inp.unregisterQ = Except.ok media →
      inp.deleteConfigQ = Except.error e →
      Release inp = ([RAction.unlockSession, RAction.waitOneSecond,
        RAction.releaseController, RAction.unregisterMachine CleanupMode.full,
        RAction.deleteConfig media], Except.error e)) ∧
    (∀ e media, inp.unlockQ = Except.ok () →
      inp.controllerReleaseQ = Except.ok () →
      inp.unregisterQ = Except.ok media →
      inp.deleteConfigQ = Except.ok () →
      inp.waitQ = Except.error e →
      Release inp = ([RAction.unlockSession, RAction.waitOneSecond,
        RAction.releaseController, RAction.unregisterMachine CleanupMode.full,
        RAction.deleteConfig media, RAction.waitForCompletion,
        RAction.progressRelease], Except.error e)) ∧
    (∀ e media, inp.unlockQ = Except.ok () →
      inp.controllerReleaseQ = Except.ok () →
      inp.unregisterQ = Except.ok media →
      inp.deleteConfigQ = Except.ok () →
      inp.waitQ = Except.ok () →
      inp.machineReleaseQ = Except.error e →
      Release inp = ([RAction.unlockSession, RAction.waitOneSecond,
        RAction.releaseController, RAction.unregisterMachine CleanupMode.full,
        RAction.deleteConfig media, RAction.waitForCompletion,
        RAction.releaseMachine, RAction.progressRelease], Except.error e)) ∧
    (∀ media, inp.unlockQ = Except.ok () →
      inp.controllerReleaseQ = Except.ok () →
      inp.unregisterQ = Except.ok media →
      inp.deleteConfigQ = Except.ok () →
      inp.waitQ = Except.ok () →
      inp.machineReleaseQ = Except.ok () →
      Release inp = ([RAction.unlockSession, RAction.waitOneSecond,
        RAction.releaseController, RAction.unregisterMachine CleanupMode.full,
        RAction.deleteConfig media, RAction.waitForCompletion,
        RAction.releaseMachine, RAction.progressRelease], Except.ok ())) := by
  refine ⟨?_, ?_, ?_, ?_, ?_, ?_, ?_⟩
  · intro e h1
    simp [Release, h1]
  · intro e h1 h2
    simp [Release, h1, h2]
  · intro e h1 h2 h3
    simp [Release, h1, h2, h3]
  · intro e media h1 h2 h3 h4
    simp [Release, h1, h2, h3, h4]
  · intro e media h1 h2 h3 h4 h5
    simp [Release, h1, h2, h3, h4, h5]
  · intro e media h1 h2 h3 h4 h5 h6
    simp [Release, h1, h2, h3, h4, h5, h6]
  · intro media h1 h2 h3 h4 h5 h6
    simp [Release, h1, h2, h3, h4, h5, h6]

/-- Witness for C8: with every call succeeding, the full ordered trace is
produced and nil returned. -/
theorem C8_release_order_witness :
    Release (ReleaseInputs.mk (Except.ok ()) (Except.ok ())
        (Except.ok [3]) (Except.ok ()) (Except.ok ()) (Except.ok ()))
      = ([RAction.unlockSession, RAction.waitOneSecond,
          RAction.releaseController,
          RAction.unregisterMachine CleanupMode.full,
          RAction.deleteConfig [3], RAction.waitForCompletion,
          RAction.releaseMachine, RAction.progressRelease], Except.ok ()) :=
  (C8_release_order _).2.2.2.2.2.2 [3] rfl rfl rfl rfl rfl rfl

lemma filter_notifyAll (hs : List α) (n : Notification)
    (f : Notification → Bool) :
    (notifyAll hs n).filter (fun d => f d.2)
      = if f n then notifyAll hs n else [] := by
  cases hfn : f n
  · rw [if_neg (by simp)]
    refine List.filter_eq_nil_iff.mpr ?_
    intro d hd
    simp only [notifyAll, List.mem_map] at hd
    obtain ⟨h, _, rfl⟩ := hd
    simp [hfn]
  · rw [if_pos rfl]
    refine List.filter_eq_self.mpr ?_
    intro d hd
    simp only [notifyAll, List.mem_map] at hd
    obtain ⟨h, _, rfl⟩ := hd
    simp [hfn]

lemma filter_fanOut (hs : List α) (ns : List Notification)
    (f : Notification → Bool) :
    (fanOut hs ns).filter (fun d => f d.2) = fanOut hs (ns.filter f) := by
  induction ns with
  | nil => rfl
  | cons n t ih =>
    have hl : fanOut hs (n :: t) = notifyAll hs n ++ fanOut hs t := by
      simp [fanOut]
    rw [hl, List.filter_append, filter_notifyAll, ih]
    cases hfn : f n
    · simp [List.filter_cons, hfn]
    · simp [List.filter_cons, hfn, fanOut]

lemma filter_key_and_of_nodup (l : List GuestProperty)
    (hl : (l.map GuestProperty.name).Nodup) (p : GuestProperty) (hp : p ∈ l)
    (g : GuestProperty → Bool) (hg : g p = true) :
    l.filter (fun x => (x.name == p.name) && g x) = [p] := by
  induction l with
  | nil => cases hp
  | cons a t ih =>
    rw [List.map_cons, List.nodup_cons] at hl
    rcases List.mem_cons.mp hp with heq | hpt
    · subst heq
      rw [List.filter_cons_of_pos (by simp [hg])]
      have ht : t.filter (fun x => (x.name == p.name) && g x) = [] := by
        refine List.filter_eq_nil_iff.mpr ?_
        intro x hx hb
        rw [Bool.and_eq_true_iff] at hb
        have hxn : x.name = p.name := by simpa using hb.1
        exact hl.1 (List.mem_map.mpr ⟨x, hx, hxn⟩)
      rw [ht]
    · have hne : ¬ ((a.name == p.name) && g a) = true := by
        intro hb
        rw [Bool.and_eq_true_iff] at hb
        have hxn : a.name = p.name := by simpa using hb.1
        refine hl.1 ?_
        rw [hxn]
        exact List.mem_map.mpr ⟨p, hpt, rfl⟩
      rw [List.filter_cons, if_neg hne]
      exact ih hl.2 hpt

lemma findProp_self_of_nodup (l : List GuestProperty)
    (hl : (l.map GuestProperty.name).Nodup) (p : GuestProperty) (hp : p ∈ l) :
    findProp l p.name = some p := by
  induction l with
  | nil => cases hp
  | cons a t ih =>
    rw [List.map_cons, List.nodup_cons] at hl
    rcases List.mem_cons.mp hp with heq | hpt
    · subst heq
      simp [findProp]
    · have hne : ¬ (a.name == p.name) = true := by
        intro hb
        have hxn : a.name = p.name := by simpa using hb
        refine hl.1 ?_
        rw [hxn]
        exact List.mem_map.mpr ⟨p, hpt, rfl⟩
      have hfalse : (a.name == p.name) = false := by
        cases hb : (a.name == p.name)
        · rfl
        · exact absurd hb hne
      simp only [findProp] at ih ⊢
      rw [List.find?_cons, hfalse]
      exact ih hl.2 hpt

lemma findProp_ne_none_of_mem (l : List GuestProperty) (p : GuestProperty)
    (hp : p ∈ l) : ¬ findProp l p.name = none := by
  intro h
  simp only [findProp, List.find?_eq_none] at h
  exact h p hp (by simp)

lemma eq_of_name_eq_of_nodup (l : List GuestProperty)
    (hl : (l.map GuestProperty.name).Nodup) (p x : GuestProperty)
    (hp : p ∈ l) (hx : x ∈ l) (hn : x.name = p.name) : x = p := by
  have h1 := filter_key_and_of_nodup l hl p hp (fun _ => true) rfl
  have hxmem : x ∈ l.filter (fun a => (a.name == p.name) && (fun _ => true) a) :=
    List.mem_filter.mpr ⟨hx, by simp [hn]⟩
  rw [h1] at hxmem
  simpa using hxmem

lemma diff_filter_of_changed (prev cur : List GuestProperty)
    (hcur : (cur.map GuestProperty.name).Nodup) (p : GuestProperty)
    (hp : p ∈ cur) (hchg : changedOrNew prev p = true) :
    (diffNotifications prev cur).filter (fun nn => nn.name == p.name)
      = [propChangedNotification p] := by
  unfold diffNotifications
  rw [List.filter_append, List.filter_map, List.filter_map]
  have hc1 : List.filter
      ((fun nn => nn.name == p.name) ∘ propChangedNotification)
      (cur.filter (changedOrNew prev))
      = List.filter (fun x => x.name == p.name)
          (cur.filter (changedOrNew prev)) := rfl
  have hc2 : List.filter
      ((fun nn => nn.name == p.name) ∘ propDeletedNotification)
      (prev.filter (fun q => (findProp cur q.name).isNone))
      = List.filter (fun x => x.name == p.name)
          (prev.filter (fun q => (findProp cur q.name).isNone)) := rfl
  rw [hc1, hc2, List.filter_filter, List.filter_filter]
  rw [filter_key_and_of_nodup cur hcur p hp (changedOrNew prev) hchg]
  have hdel : List.filter
      (fun a => (a.name == p.name) && (findProp cur a.name).isNone) prev
      = [] := by
    refine List.filter_eq_nil_iff.mpr ?_
    intro q hq hb
    rw [Bool.and_eq_true_iff] at hb
    have hqn : q.name = p.name := by simpa using hb.1
    have hb2 := hb.2
    rw [hqn, Option.isNone_iff_eq_none] at hb2
    exact findProp_ne_none_of_mem cur p hp hb2
  rw [hdel]
  simp

lemma diff_filter_of_deleted (prev cur : List GuestProperty)
    (hprev : (prev.map GuestProperty.name).Nodup) (q : GuestProperty)
    (hq : q ∈ prev) (hdel : findProp cur q.name = none) :
    (diffNotifications prev cur).filter (fun nn => nn.name == q.name)
      = [propDeletedNotification q] := by
  unfold diffNotifications
  rw [List.filter_append, List.filter_map, List.filter_map]
  have hc1 : List.filter
      ((fun nn => nn.name == q.name) ∘ propChangedNotification)
      (cur.filter (changedOrNew prev))
      = List.filter (fun x => x.name == q.name)
          (cur.filter (changedOrNew prev)) := rfl
  have hc2 : List.filter
      ((fun nn => nn.name == q.name) ∘ propDeletedNotification)
      (prev.filter (fun x => (findProp cur x.name).isNone))
      = List.filter (fun x => x.name == q.name)
          (prev.filter (fun x => (findProp cur x.name).isNone)) := rfl
  rw [hc1, hc2, List.filter_filter, List.filter_filter]
  have hchgnil : List.filter
      (fun a => (a.name == q.name) && changedOrNew prev a) cur = [] := by
    refine List.filter_eq_nil_iff.mpr ?_
    intro x hx hb
    rw [Bool.and_eq_true_iff] at hb
    have hxn : x.name = q.name := by simpa using hb.1
    refine findProp_ne_none_of_mem cur x hx ?_
    rw [hxn]
    exact hdel
  rw [hchgnil,
    filter_key_and_of_nodup prev hprev q hq
      (fun a => (findProp cur a.name).isNone) (by simp [hdel])]
  simp

lemma diff_filter_of_unchanged (prev cur : List GuestProperty)
    (hcur : (cur.map GuestProperty.name).Nodup) (p q0 : GuestProperty)
    (hp : p ∈ cur) (hfind : findProp prev p.name = some q0)
    (hval : q0.value = p.value) :
    (diffNotifications prev cur).filter (fun nn => nn.name == p.name)
      = [] := by
  unfold diffNotifications
  rw [List.filter_append, List.filter_map, List.filter_map]
  have hc1 : List.filter
      ((fun nn => nn.name == p.name) ∘ propChangedNotification)
      (cur.filter (changedOrNew prev))
      = List.filter (fun x => x.name == p.name)
          (cur.filter (changedOrNew prev)) := rfl
  have hc2 : List.filter
      ((fun nn => nn.name == p.name) ∘ propDeletedNotification)
      (prev.filter (fun x => (findProp cur x.name).isNone))
      = List.filter (fun x => x.name == p.name)
          (prev.filter (fun x => (findProp cur x.name).isNone)) := rfl
  rw [hc1, hc2, List.filter_filter, List.filter_filter]
  have h1 : List.filter
      (fun a => (a.name == p.name) && changedOrNew prev a) cur = [] := by
    refine List.filter_eq_nil_iff.mpr ?_
    intro x hx hb
    rw [Bool.and_eq_true_iff] at hb
    have hxn : x.name = p.name := by simpa using hb.1
    have hxp : x = p := eq_of_name_eq_of_nodup cur hcur p x hp hx hxn
    subst hxp
    exact absurd hb.2 (by simp [changedOrNew, hfind, hval])
  have h2 : List.filter
      (fun a => (a.name == p.name) && (findProp cur a.name).isNone) prev
      = [] := by
    refine List.filter_eq_nil_iff.mpr ?_
    intro q hq hb
    rw [Bool.and_eq_true_iff] at hb
    have hqn : q.name = p.name := by simpa using hb.1
    have hb2 := hb.2
    rw [hqn, Option.isNone_iff_eq_none] at hb2
    exact findProp_ne_none_of_mem cur p hp hb2
  rw [h1, h2]
  simp

lemma diff_self_eq_nil (cur : List GuestProperty)
    (hcur : (cur.map GuestProperty.name).Nodup) :
    diffNotifications cur cur = [] := by
  unfold diffNotifications
  have h1 : cur.filter (changedOrNew cur) = [] := by
    refine List.filter_eq_nil_iff.mpr ?_
    intro p hp hb
    simp only [changedOrNew, findProp_self_of_nodup cur hcur p hp] at hb
    simp at hb
  have h2 : cur.filter (fun q => (findProp cur q.name).isNone) = [] := by
    refine List.filter_eq_nil_iff.mpr ?_
    intro q hq hb
    rw [Option.isNone_iff_eq_none] at hb
    exact findProp_ne_none_of_mem cur q hq hb
  rw [h1, h2]
  simp

/-- Claim C1: for map-shaped snapshots (no duplicate keys), the deliveries of
one polling diff, restricted to any single key, are: exactly one
notification per registered observer carrying the current snapshot's
name/value/timestamp/flags when the key is new or its value changed; exactly
one per observer with that name, empty value, zero timestamp and empty flags
when the key was deleted; and none at all when the key's value is unchanged.
Diffing a snapshot against itself yields no notification whatsoever. -/
theorem C1_polling_diff_exact (prev cur : List GuestProperty)
    (handlers : List α)
    (hprev : (prev.map GuestProperty.name).Nodup)
    (hcur : (cur.map GuestProperty.name).Nodup) :
    (∀ p ∈ cur, changedOrNew prev p = true →
      (fanOut handlers (diffNotifications prev cur)).filter
          (fun d => d.2.name == p.name)
        = notifyAll handlers (propChangedNotification p)) ∧
    (∀ q ∈ prev, findProp cur q.name = none →
      (fanOut handlers (diffNotifications prev cur)).filter
          (fun d => d.2.name == q.name)
        = notifyAll handlers (propDeletedNotification q)) ∧
    (∀ p ∈ cur, ∀ q0, findProp prev p.name = some q0 → q0.value = p.value →
      (fanOut handlers (diffNotifications prev cur)).filter
          (fun d => d.2.name == p.name) = []) ∧
    diffNotifications cur cur = [] := by
  refine ⟨?_, ?_, ?_, diff_self_eq_nil cur hcur⟩
  · intro p hp hchg
    have hf : (fanOut handlers (diffNotifications prev cur)).filter
        (fun d => d.2.name == p.name)
        = fanOut handlers ((diffNotifications prev cur).filter
            (fun nn => nn.name == p.name)) :=
      filter_fanOut handlers (diffNotifications prev cur)
        (fun nn => nn.name == p.name)
    rw [hf, diff_filter_of_changed prev cur hcur p hp hchg]
    simp [fanOut]
  · intro q hq hdel
    have hf : (fanOut handlers (diffNotifications prev cur)).filter
        (fun d => d.2.name == q.name)
        = fanOut handlers ((diffNotifications prev cur).filter
            (fun nn => nn.name == q.name)) :=
      filter_fanOut handlers (diffNotifications prev cur)
        (fun nn => nn.name == q.name)
    rw [hf, diff_filter_of_deleted prev cur hprev q hq hdel]
    simp [fanOut]
  · intro p hp q0 hfind hval
    have hf : (fanOut handlers (diffNotifications prev cur)).filter
        (fun d => d.2.name == p.name)
        = fanOut handlers ((diffNotifications prev cur).filter
            (fun nn => nn.name == p.name)) :=
      filter_fanOut handlers (diffNotifications prev cur)
        (fun nn => nn.name == p.name)
    rw [hf, diff_filter_of_unchanged prev cur hcur p q0 hp hfind hval]
    rfl

/-- Witness for C1: key a changes from 1 to 2; the deliveries for key a are
exactly one per observer, carrying the current value, timestamp and flags. -/
theorem C1_polling_diff_exact_witness :
    (fanOut [0, 1] (diffNotifications
        [GuestProperty.mk "a" "1" 5 "f"]
        [GuestProperty.mk "a" "2" 7 "g"])).filter
      (fun d => d.2.name == (GuestProperty.mk "a" "2" 7 "g").name)
      = notifyAll [0, 1]
          (propChangedNotification (GuestProperty.mk "a" "2" 7 "g")) :=
  (C1_polling_diff_exact
    [GuestProperty.mk "a" "1" 5 "f"] [GuestProperty.mk "a" "2" 7 "g"]
    [0, 1] (by decide) (by decide)).1
    (GuestProperty.mk "a" "2" 7 "g") (by decide) (by decide)

lemma fanOut_append (hs : List α) (xs ys : List Notification) :
    fanOut hs (xs ++ ys) = fanOut hs xs ++ fanOut hs ys := by
  simp [fanOut]

lemma snd_mem_of_mem_fanOut (hs : List α) (ns : List Notification)
    (d : α × Notification) (hd : d ∈ fanOut hs ns) : d.2 ∈ ns := by
  simp only [fanOut, List.mem_flatMap] at hd
  obtain ⟨n, hn, hdn⟩ := hd
  simp only [notifyAll, List.mem_map] at hdn
  obtain ⟨h, _, rfl⟩ := hdn
  exact hn

lemma not_mem_names_of_findProp_none (cur : List GuestProperty) (n : String)
    (h : findProp cur n = none) : n ∉ cur.map GuestProperty.name := by
  intro hmem
  obtain ⟨x, hx, hxn⟩ := List.mem_map.mp hmem
  simp only [findProp, List.find?_eq_none] at h
  exact h x hx (by simp [hxn])

lemma pairwise_impl_of_forall_left {β : Type u} {P Q : β → Prop} (l : List β)
    (h : ∀ x ∈ l, ¬ P x) : l.Pairwise (fun x y => P x → Q y) := by
  induction l with
  | nil => exact List.Pairwise.nil
  | cons a t ih =>
    refine List.pairwise_cons.mpr
      ⟨?_, ih (fun x hx => h x (List.mem_cons_of_mem _ hx))⟩
    intro b _ hpa
    exact absurd hpa (h a (List.mem_cons_self _ _))

lemma pairwise_impl_of_forall_right {β : Type u} {P Q : β → Prop} (l : List β)
    (h : ∀ x ∈ l, Q x) : l.Pairwise (fun x y => P x → Q y) := by
  induction l with
  | nil => exact List.Pairwise.nil
  | cons a t ih =>
    refine List.pairwise_cons.mpr
      ⟨?_, ih (fun x hx => h x (List.mem_cons_of_mem _ hx))⟩
    intro b hb _
    exact h b (List.mem_cons_of_mem _ hb)

/-- Claim C9: within one polling iteration, every delivery for a changed or
newly present key (a key the current snapshot holds) comes before every
delivery for a deleted key (a key the current snapshot lacks): wherever a
deletion delivery sits in the sequence, everything from it onwards is also a
deletion delivery, because the diff emits the whole changed block before the
deleted block. -/
theorem C9_changes_before_deletions (prev cur : List GuestProperty)
    (handlers : List α) :
    (fanOut handlers (diffNotifications prev cur)).Pairwise
      (fun d1 d2 => d1.2.name ∉ cur.map GuestProperty.name →
        d2.2.name ∉ cur.map GuestProperty.name) := by
  have hsplit : fanOut handlers (diffNotifications prev cur)
      = fanOut handlers
          ((cur.filter (changedOrNew prev)).map propChangedNotification)
        ++ fanOut handlers
            ((prev.filter (fun q => (findProp cur q.name).isNone)).map
              propDeletedNotification) := by
    rw [diffNotifications, fanOut_append]
  rw [hsplit]
  have hA : ∀ d ∈ fanOut handlers
      ((cur.filter (changedOrNew prev)).map propChangedNotification),
      d.2.name ∈ cur.map GuestProperty.name := by
    intro d hd
    have h2 := snd_mem_of_mem_fanOut _ _ d hd
    obtain ⟨p, hp, hpd⟩ := List.mem_map.mp h2
    have hpc : p ∈ cur := (List.mem_filter.mp hp).1
    rw [← hpd]
    exact List.mem_map.mpr ⟨p, hpc, rfl⟩
  have hB : ∀ d ∈ fanOut handlers
      ((prev.filter (fun q => (findProp cur q.name).isNone)).map
        propDeletedNotification),
      d.2.name ∉ cur.map GuestProperty.name := by
    intro d hd
    have h2 := snd_mem_of_mem_fanOut _ _ d hd
    obtain ⟨q, hq, hqd⟩ := List.mem_map.mp h2
    have hqdel := (List.mem_filter.mp hq).2
    rw [← hqd]
    exact not_mem_names_of_findProp_none cur q.name
      (Option.isNone_iff_eq_none.mp hqdel)
  refine List.pairwise_append.mpr ⟨?_, ?_, ?_⟩
  · exact @pairwise_impl_of_forall_left (α × Notification)
      (fun x => x.2.name ∉ cur.map GuestProperty.name)
      (fun y => y.2.name ∉ cur.map GuestProperty.name) _
      (fun d hd hnd => hnd (hA d hd))
  · exact @pairwise_impl_of_forall_right (α × Notification)
      (fun x => x.2.name ∉ cur.map GuestProperty.name)
      (fun y => y.2.name ∉ cur.map GuestProperty.name) _ hB
  · intro d1 _ d2 hd2 _
    exact hB d2 hd2

/-- Witness for C4: a failed state query makes the iteration exit with nil. -/
theorem C4_poll_exit_condition_witness :
    pollStep [0] MachineState.running []
        (PollInput.mk (Except.error "state query failed") (Except.ok []))
      = PollStepR.exitOk :=
  (C4_poll_exit_condition [0] MachineState.running []
    (PollInput.mk (Except.error "state query failed") (Except.ok []))).mpr
    (Or.inl ⟨"state query failed", rfl⟩)

/-- Witness for C6: observers registered in order 10, 20, 30 receive a
notification in exactly that order. -/
theorem C6_register_and_fanout_order_witness :
    notifyAll [10, 20, 30] (Notification.mk "k" "v" 1 "")
      = [(10, Notification.mk "k" "v" 1 ""),
         (20, Notification.mk "k" "v" 1 ""),
         (30, Notification.mk "k" "v" 1 "")] :=
  (C6_register_and_fanout_order [10, 20, 30] 0 10 20 30
    (Notification.mk "k" "v" 1 "")).2.2.2.2.1

/-- Witness for C9: with one changed key and one deleted key, the deliveries
satisfy the changes-before-deletions ordering. -/
theorem C9_changes_before_deletions_witness :
    (fanOut [0, 1] (diffNotifications
        [GuestProperty.mk "a" "1" 2 "", GuestProperty.mk "b" "3" 4 ""]
        [GuestProperty.mk "a" "9" 8 ""])).Pairwise
      (fun d1 d2 =>
        d1.2.name ∉ [GuestProperty.mk "a" "9" 8 ""].map GuestProperty.name →
        d2.2.name ∉ [GuestProperty.mk "a" "9" 8 ""].map GuestProperty.name) :=
  C9_changes_before_deletions
    [GuestProperty.mk "a" "1" 2 "", GuestProperty.mk "b" "3" 4 ""]
    [GuestProperty.mk "a" "9" 8 ""] [0, 1]

end Vlaunch
